import Mathlib

/-!
Verification development for the Stellara_Contracts repository.

The visible source consists of two wiring files:
  * `src/Backend/src/app.module.ts` — the NestJS root module (`AppModule`);
  * `src/Frontend/src/app/layout.tsx` — the Next.js root layout (`RootLayout`).

The Stellar Monitor subsystem (cursor store, ledger stream client,
deduplication cache, event normalizer, dispatcher, monitor controller) is
described in the specification but its implementation files are not part of
the visible source tree; those components are modelled here directly from the
specification's component contracts (each such definition carries a
`Modelled from the spec:` doc comment).
-/

namespace Stellara

/-! ## Embedding of `src/Backend/src/app.module.ts` -/

/-- The NestJS feature modules imported by the root module, as referenced in
`app.module.ts`. -/
inductive NestModuleRef where
  | DatabaseModule
  | RedisModule
  | VoiceModule
  | StellarMonitorModule
deriving DecidableEq

/-- Controller classes referenced in `app.module.ts`. -/
inductive ControllerRef where
  | AppController
deriving DecidableEq

/-- Provider classes referenced in `app.module.ts`. -/
inductive ProviderRef where
  | AppService
deriving DecidableEq

/-- The metadata object passed to the `@Module` decorator. -/
structure ModuleMeta where
  imports : List NestModuleRef
  controllers : List ControllerRef
  providers : List ProviderRef

/-- `AppModule` from `src/Backend/src/app.module.ts`: the `@Module` decorator
metadata, transcribed field by field. -/
def AppModule : ModuleMeta :=
  { imports := [NestModuleRef.DatabaseModule, NestModuleRef.RedisModule,
                NestModuleRef.VoiceModule, NestModuleRef.StellarMonitorModule]
    controllers := [ControllerRef.AppController]
    providers := [ProviderRef.AppService] }

/-! ## Embedding of `src/Frontend/src/app/layout.tsx` -/

/-- A React virtual-DOM node: either text or an element with a tag, an
attribute list and a list of children. -/
inductive ReactNode where
  | text (s : String)
  | element (tag : String) (attrs : List (String × String)) (children : List ReactNode)

/-- The exported `metadata` object of `layout.tsx`. -/
structure PageMetadata where
  title : String
  description : String

/-- `metadata` from `src/Frontend/src/app/layout.tsx`. -/
def metadata : PageMetadata :=
  { title := "Stellara AI"
    description := "Learn. Trade. Connect. Powered by AI on Stellar." }

/-- The `className` attribute value of the `body` element in `layout.tsx`. -/
def bodyClassName : String := "min-h-screen bg-[#f9fafb] text-[#111827]"

/-- `RootLayout` from `src/Frontend/src/app/layout.tsx`: returns an `html`
element with `lang="en"` whose single child is a `body` element containing
exactly `children`. -/
def RootLayout (children : ReactNode) : ReactNode :=
  ReactNode.element "html" [("lang", "en")]
    [ReactNode.element "body" [("className", bodyClassName)] [children]]

/-! ## Stellar Monitor: data model (modelled from the spec, §3) -/

/-- Modelled from the spec: the `kind` enum of a `NormalizedEvent`
(payment, account-created, trustline). The monitor implementation is not in
the visible source tree. -/
inductive EventKind where
  | payment
  | accountCreated
  | trustline
deriving DecidableEq

/-- Modelled from the spec: `RawLedgerEvent` — the source-provided record
(ledger number, transaction hash/id, operation payload, timestamp), immutable
once fetched. `kindTag` encodes the operation's kind in the source schema; a
tag outside the known range, or an empty transaction id, is a schema
violation. The monitor implementation is not in the visible source tree. -/
structure RawLedgerEvent where
  ledgerSeq : Nat
  txId : String
  opIndex : Nat
  kindTag : Nat
  payload : String
  timestamp : Nat
deriving DecidableEq

/-- Modelled from the spec: `NormalizedEvent` — the canonical internal form
{eventId (stable hash of source id), ledgerSequence, kind, payload,
observedAt}. -/
structure NormalizedEvent where
  eventId : Nat
  ledgerSequence : Nat
  kind : EventKind
  payload : String
  observedAt : Nat
deriving DecidableEq

/-- Modelled from the spec: the error taxonomy of §7. -/
inductive MonitorError where
  | transientFetch
  | fatalProtocol
  | malformedEvent
  | invalidCursor
  | consumerDelivery
deriving DecidableEq

/-! ## Event Normalizer (modelled from the spec, §4.2) -/

/-- Modelled from the spec: the stable hash over source transaction id +
operation index used to assign `eventId` deterministically. -/
def stableHash (txId : String) (opIndex : Nat) : Nat :=
  (txId.data.foldl (fun h c => h * 31 + c.toNat) 7) * 1000003 + opIndex

/-- Modelled from the spec: whether a raw record conforms to the source
schema (a nonempty transaction id and a recognized kind tag). -/
def schemaOk (r : RawLedgerEvent) : Bool :=
  decide (r.txId ≠ "" ∧ r.kindTag ≤ 2)

/-- Modelled from the spec: decoding of the source kind tag. -/
def kindOfTag (t : Nat) : EventKind :=
  if t = 0 then EventKind.payment
  else if t = 1 then EventKind.accountCreated
  else EventKind.trustline

/-- Modelled from the spec: `normalize(RawLedgerEvent) -> NormalizedEvent`,
pure and total over well-formed input; fails with `MalformedEventError` on
schema violations; assigns `eventId` as the stable hash over source
transaction id + operation index. -/
def normalize (r : RawLedgerEvent) : Except MonitorError NormalizedEvent :=
  if schemaOk r then
    Except.ok
      { eventId := stableHash r.txId r.opIndex
        ledgerSequence := r.ledgerSeq
        kind := kindOfTag r.kindTag
        payload := r.payload
        observedAt := r.timestamp }
  else Except.error MonitorError.malformedEvent

/-! ## Deduplication Cache (modelled from the spec, §4.3) -/

/-- Modelled from the spec: the Deduplication Cache as a list of `DedupEntry`
records {eventId, expiresAt}. -/
abbrev DedupCache := List (Nat × Nat)

/-- Modelled from the spec: `seen(eventId) -> bool` — an event id is seen at
time `now` when the cache holds an unexpired entry for it. -/
def seen (cache : DedupCache) (eventId now : Nat) : Bool :=
  cache.any (fun e => e.1 = eventId && now ≤ e.2)

/-- Modelled from the spec: `markSeen(eventId, ttl)` — records the event id
with expiry `now + ttl`; marking an id that is already (unexpired) in the
cache is a no-op, making `markSeen` idempotent. -/
def markSeen (cache : DedupCache) (eventId ttl now : Nat) : DedupCache :=
  if seen cache eventId now then cache else (eventId, now + ttl) :: cache

/-! ## Dispatcher (modelled from the spec, §4.4 and §9) -/

/-- Modelled from the spec: `ConsumerRegistration` {consumerId,
interestFilter, deliverFn}; the deliver function is modelled by the outcome
`deliverOk` it yields for an event once its own retry budget is spent. -/
structure ConsumerRegistration where
  consumerId : Nat
  interestFilter : NormalizedEvent → Bool
  deliverOk : NormalizedEvent → Bool

/-- Modelled from the spec: the registered consumers whose interest filter
matches an event. -/
def matching (consumers : List ConsumerRegistration) (e : NormalizedEvent) :
    List ConsumerRegistration :=
  consumers.filter (fun c => c.interestFilter e)

/-- Modelled from the spec: `deliver(NormalizedEvent) -> per-consumer result
set` — each matching consumer's deliver function is called and its outcome
recorded. -/
def deliver (consumers : List ConsumerRegistration) (e : NormalizedEvent) :
    List (Nat × Bool) :=
  (matching consumers e).map (fun c => (c.consumerId, c.deliverOk e))

/-- Modelled from the spec: whether delivery succeeded for every matching
consumer (within each consumer's own retry budget). -/
def deliverAllOk (consumers : List ConsumerRegistration) (e : NormalizedEvent) : Bool :=
  (matching consumers e).all (fun c => c.deliverOk e)

/-! ## Ledger Stream Client (modelled from the spec, §4.1) -/

/-- Modelled from the spec: the ordering on raw events by ledger sequence
used by the stream client to sort batches. -/
def seqLe (a b : RawLedgerEvent) : Prop := a.ledgerSeq ≤ b.ledgerSeq

instance : DecidableRel seqLe := fun a b => Nat.decLe a.ledgerSeq b.ledgerSeq

instance : IsTotal RawLedgerEvent seqLe :=
  ⟨fun a b => Nat.le_total a.ledgerSeq b.ledgerSeq⟩

instance : IsTrans RawLedgerEvent seqLe :=
  ⟨fun _ _ _ h1 h2 => Nat.le_trans h1 h2⟩

/-- Modelled from the spec: `fetchSince(cursor)` over a source modelled as
the full list of raw events available from the ledger; it returns the events
strictly after the cursor, sorted into increasing ledger-sequence order (the
client sorts any out-of-order source batch before returning). -/
def fetchSince (source : List RawLedgerEvent) (cursor : Nat) : List RawLedgerEvent :=
  List.insertionSort seqLe (source.filter (fun r => cursor < r.ledgerSeq))

/-! ## Cursor Store (modelled from the spec, §3 and §5) -/

/-- Modelled from the spec: operations on the stored cursor — a conditional
write carrying the instance's expected prior value and the new position, or
an explicit resync. -/
inductive CursorOp where
  | condWrite (expected newVal : Nat)
  | resync (v : Nat)
deriving DecidableEq

/-- Modelled from the spec: the conditional cursor write — the write is
rejected (store unchanged, `false`) if the stored cursor has already advanced
past the instance's expected prior value; otherwise the new value is stored
and the write is accepted. -/
def condWriteStore (stored expected newVal : Nat) : Nat × Bool :=
  if expected < stored then (stored, false) else (newVal, true)

/-- Modelled from the spec: one step of the cursor store. -/
def cursorStoreStep (stored : Nat) : CursorOp → Nat
  | CursorOp.condWrite e n => (condWriteStore stored e n).1
  | CursorOp.resync v => v

/-- Modelled from the spec: a conditional write issued by a monitor instance
advances the cursor — the new value is at least the expected prior value the
instance read; `resync` is the explicit operator intervention. -/
def advancingOp : CursorOp → Prop
  | CursorOp.condWrite e n => e ≤ n
  | CursorOp.resync _ => False

instance : DecidablePred advancingOp := fun op => by
  cases op with
  | condWrite e n => exact (inferInstance : Decidable (e ≤ n))
  | resync v => exact (inferInstance : Decidable False)

/-! ## Monitor Controller processing loop (modelled from the spec, §4.5) -/

/-- Modelled from the spec: configuration surface of §6 (the fields the
processing model uses). -/
structure MonitorCfg where
  dedupTtl : Nat

/-- Modelled from the spec: the monitor's shared state — the committed
cursor, the log of every cursor value durably persisted (newest first), the
deduplication cache, the dispatch log (consumerId, eventId) in delivery
order, and the log of ledger sequences of skipped malformed records. -/
structure MonitorState where
  cursor : Nat
  persistLog : List Nat
  dedup : DedupCache
  dispatchLog : List (Nat × Nat)
  skipLog : List Nat
deriving DecidableEq

/-- Modelled from the spec: the freshly started monitor at a persisted
cursor. -/
def initState (c0 : Nat) : MonitorState :=
  { cursor := c0, persistLog := [c0], dedup := [], dispatchLog := [], skipLog := [] }

/-- Modelled from the spec: advancing the committed cursor to position `p`
(never backward): the new value is persisted (appended to the persist log)
before becoming the committed cursor. -/
def advanceCursor (s : MonitorState) (p : Nat) : MonitorState :=
  { s with cursor := max s.cursor p, persistLog := max s.cursor p :: s.persistLog }

/-- Modelled from the spec: the per-batch processing loop of the Monitor
Controller. Each event is normalized; a malformed record is logged, skipped
and the cursor advances past it; a duplicate (seen) event is skipped and the
cursor advances past it; otherwise delivery to every matching consumer is
attempted — on full success the event is marked seen and the cursor advances
past it, while a delivery failure (after the consumer's retry budget) leaves
the event unmarked and the cursor unadvanced, ending the batch for safe
at-least-once redelivery. -/
def processBatch (cfg : MonitorCfg) (consumers : List ConsumerRegistration)
    (now : Nat) : MonitorState → List RawLedgerEvent → MonitorState
  | s, [] => s
  | s, r :: rs =>
    match normalize r with
    | Except.error _ =>
        processBatch cfg consumers now
          { advanceCursor s r.ledgerSeq with skipLog := s.skipLog ++ [r.ledgerSeq] } rs
    | Except.ok e =>
        if seen s.dedup e.eventId now then
          processBatch cfg consumers now (advanceCursor s e.ledgerSequence) rs
        else
          let s' := { s with
            dispatchLog :=
              s.dispatchLog ++ (matching consumers e).map (fun c => (c.consumerId, e.eventId)) }
          if deliverAllOk consumers e then
            processBatch cfg consumers now
              { advanceCursor s' e.ledgerSequence with
                  dedup := markSeen s.dedup e.eventId cfg.dedupTtl now } rs
          else s'

/-- Modelled from the spec: the number of dispatches of event `eid` recorded
for consumer `cid`. -/
def countDispatch (s : MonitorState) (cid eid : Nat) : Nat :=
  (s.dispatchLog.filter (fun p => p.1 = cid && p.2 = eid)).length

/-! ## Backoff policy (modelled from the spec, §4.5 and §8) -/

/-- Modelled from the spec: the backoff configuration (minimum delay,
`maxBackoffMs` cap). -/
structure BackoffCfg where
  minBackoffMs : Nat
  maxBackoffMs : Nat

/-- Modelled from the spec: exponential delay with jitter, capped at the
configured maximum, as a function of the number of consecutive transient
failures. -/
def backoffDelay (cfg : BackoffCfg) (failures jitter : Nat) : Nat :=
  min (cfg.minBackoffMs * 2 ^ failures + jitter) cfg.maxBackoffMs

/-- Modelled from the spec: the outcome of one fetch attempt. -/
inductive FetchOutcome where
  | success
  | transientError
deriving DecidableEq

/-- Modelled from the spec: the controller's consecutive-transient-failure
counter — incremented on `TransientFetchError`, reset to zero (minimum
delay) on any subsequent success. -/
def stepRetry (failures : Nat) : FetchOutcome → Nat
  | FetchOutcome.success => 0
  | FetchOutcome.transientError => failures + 1

/-! ## Concrete fixtures used to exercise the model -/

/-- A downstream consumer (e.g. the voice/notification module) interested in
every event, whose delivery always succeeds. -/
def voiceConsumer : ConsumerRegistration :=
  { consumerId := 1, interestFilter := fun _ => true, deliverOk := fun _ => true }

/-- A consumer whose delivery always fails even after its retry budget. -/
def failingConsumer : ConsumerRegistration :=
  { consumerId := 2, interestFilter := fun _ => true, deliverOk := fun _ => false }

/-- A well-formed raw event at ledger sequence 1. -/
def demoRaw : RawLedgerEvent :=
  { ledgerSeq := 1, txId := "t1", opIndex := 0, kindTag := 0, payload := "p", timestamp := 0 }

/-- The normalized form of `demoRaw`. -/
def demoNorm : NormalizedEvent :=
  { eventId := stableHash "t1" 0, ledgerSequence := 1, kind := kindOfTag 0
    payload := "p", observedAt := 0 }

/-- A batch of five raw events at ledger sequences 1..5 whose third record is
malformed (empty transaction id). -/
def demoBatch5 : List RawLedgerEvent :=
  [ { ledgerSeq := 1, txId := "t1", opIndex := 0, kindTag := 0, payload := "p1", timestamp := 1 }
  , { ledgerSeq := 2, txId := "t2", opIndex := 0, kindTag := 1, payload := "p2", timestamp := 2 }
  , { ledgerSeq := 3, txId := "", opIndex := 0, kindTag := 0, payload := "p3", timestamp := 3 }
  , { ledgerSeq := 4, txId := "t4", opIndex := 0, kindTag := 2, payload := "p4", timestamp := 4 }
  , { ledgerSeq := 5, txId := "t5", opIndex := 0, kindTag := 0, payload := "p5", timestamp := 5 } ]

/-- A source batch delivered out of order with ledger sequences [3, 1, 2]. -/
def demoOutOfOrder : List RawLedgerEvent :=
  [ { ledgerSeq := 3, txId := "a3", opIndex := 0, kindTag := 0, payload := "q3", timestamp := 3 }
  , { ledgerSeq := 1, txId := "a1", opIndex := 0, kindTag := 0, payload := "q1", timestamp := 1 }
  , { ledgerSeq := 2, txId := "a2", opIndex := 0, kindTag := 0, payload := "q2", timestamp := 2 } ]

/-! ## Helper lemmas -/

theorem normalize_ok_eventId {r : RawLedgerEvent} {e : NormalizedEvent}
    (h : normalize r = Except.ok e) : e.eventId = stableHash r.txId r.opIndex := by
  unfold normalize at h
  split at h
  · injection h with h'
    rw [← h']
  · exact Except.noConfusion h

theorem markSeen_idem (cache : DedupCache) (eventId ttl now : Nat) :
    markSeen (markSeen cache eventId ttl now) eventId ttl now =
      markSeen cache eventId ttl now := by
  unfold markSeen
  by_cases h : seen cache eventId now
  · simp [h]
  · simp only [h, if_false, Bool.false_eq_true, if_neg, not_false_eq_true]
    have hs : seen ((eventId, now + ttl) :: cache) eventId now = true := by
      simp [seen, Nat.le_add_right]
    simp [hs]

theorem processBatch_singleton_fresh (cfg : MonitorCfg)
    (consumers : List ConsumerRegistration) (now : Nat) (s : MonitorState)
    (r : RawLedgerEvent) (e : NormalizedEvent)
    (hn : normalize r = Except.ok e)
    (hseen : seen s.dedup e.eventId now = false)
    (hok : deliverAllOk consumers e = true) :
    processBatch cfg consumers now s [r] =
      { cursor := max s.cursor e.ledgerSequence
        persistLog := max s.cursor e.ledgerSequence :: s.persistLog
        dedup := markSeen s.dedup e.eventId cfg.dedupTtl now
        dispatchLog := s.dispatchLog ++
          (matching consumers e).map (fun x => (x.consumerId, e.eventId))
        skipLog := s.skipLog } := by
  simp only [processBatch, hn, hseen, hok, advanceCursor, Bool.false_eq_true, if_false,
    if_true, if_neg, not_false_eq_true]

theorem processBatch_cons_seen (cfg : MonitorCfg)
    (consumers : List ConsumerRegistration) (now : Nat) (s : MonitorState)
    (r : RawLedgerEvent) (rs : List RawLedgerEvent) (e : NormalizedEvent)
    (hn : normalize r = Except.ok e)
    (hseen : seen s.dedup e.eventId now = true) :
    processBatch cfg consumers now s (r :: rs) =
      processBatch cfg consumers now (advanceCursor s e.ledgerSequence) rs := by
  simp only [processBatch, hn, hseen, if_true]

theorem count_matching_dispatch (consumers : List ConsumerRegistration)
    (c : ConsumerRegistration) (e : NormalizedEvent)
    (hids : (consumers.map ConsumerRegistration.consumerId).Nodup)
    (hmem : c ∈ consumers) (hfilter : c.interestFilter e = true) :
    (((matching consumers e).map (fun x => (x.consumerId, e.eventId))).filter
      (fun p => p.1 = c.consumerId && p.2 = e.eventId)).length = 1 := by
  rw [List.filter_map, List.length_map]
  have hnodup : ((matching consumers e).map ConsumerRegistration.consumerId).Nodup :=
    hids.sublist ((List.filter_sublist consumers).map ConsumerRegistration.consumerId)
  have hcmem : c ∈ matching consumers e := List.mem_filter.2 ⟨hmem, hfilter⟩
  have hcid : c.consumerId ∈ (matching consumers e).map ConsumerRegistration.consumerId :=
    List.mem_map_of_mem ConsumerRegistration.consumerId hcmem
  have h1 := List.count_eq_one_of_mem hnodup hcid
  rw [List.count_eq_countP, List.countP_map] at h1
  rw [← List.countP_eq_length_filter]
  rw [← h1]
  refine List.countP_congr ?_
  intro x _
  by_cases hx : x.consumerId = c.consumerId <;> simp [hx, Function.comp]

theorem processBatch_cons_error (cfg : MonitorCfg)
    (consumers : List ConsumerRegistration) (now : Nat) (s : MonitorState)
    (r : RawLedgerEvent) (rs : List RawLedgerEvent) (err : MonitorError)
    (hn : normalize r = Except.error err) :
    processBatch cfg consumers now s (r :: rs) =
      processBatch cfg consumers now
        { advanceCursor s r.ledgerSeq with skipLog := s.skipLog ++ [r.ledgerSeq] } rs := by
  simp only [processBatch, hn]

theorem processBatch_cons_fresh_ok (cfg : MonitorCfg)
    (consumers : List ConsumerRegistration) (now : Nat) (s : MonitorState)
    (r : RawLedgerEvent) (rs : List RawLedgerEvent) (e : NormalizedEvent)
    (hn : normalize r = Except.ok e)
    (hseen : seen s.dedup e.eventId now = false)
    (hok : deliverAllOk consumers e = true) :
    processBatch cfg consumers now s (r :: rs) =
      processBatch cfg consumers now
        { cursor := max s.cursor e.ledgerSequence
          persistLog := max s.cursor e.ledgerSequence :: s.persistLog
          dedup := markSeen s.dedup e.eventId cfg.dedupTtl now
          dispatchLog := s.dispatchLog ++
            (matching consumers e).map (fun x => (x.consumerId, e.eventId))
          skipLog := s.skipLog } rs := by
  simp only [processBatch, hn, hseen, hok, advanceCursor, Bool.false_eq_true, if_false,
    if_true, if_neg, not_false_eq_true]

theorem processBatch_cons_fresh_fail (cfg : MonitorCfg)
    (consumers : List ConsumerRegistration) (now : Nat) (s : MonitorState)
    (r : RawLedgerEvent) (rs : List RawLedgerEvent) (e : NormalizedEvent)
    (hn : normalize r = Except.ok e)
    (hseen : seen s.dedup e.eventId now = false)
    (hfail : deliverAllOk consumers e = false) :
    processBatch cfg consumers now s (r :: rs) =
      { s with dispatchLog := s.dispatchLog ++
          (matching consumers e).map (fun x => (x.consumerId, e.eventId)) } := by
  simp only [processBatch, hn, hseen, hfail, Bool.false_eq_true, if_false, if_neg,
    not_false_eq_true]

theorem cursorStoreStep_advancing_le (stored : Nat) (op : CursorOp)
    (h : advancingOp op) : stored ≤ cursorStoreStep stored op := by
  cases op with
  | condWrite e n =>
    have hen : e ≤ n := h
    by_cases hlt : e < stored
    · simp [cursorStoreStep, condWriteStore, hlt]
    · simp only [cursorStoreStep, condWriteStore, hlt, if_neg, not_false_eq_true, if_false]
      exact Nat.le_trans (Nat.le_of_not_lt hlt) hen
  | resync v => exact absurd h (by simp [advancingOp])

theorem foldl_cursorStoreStep_mono (ops : List CursorOp) :
    ∀ stored : Nat, (∀ op ∈ ops, advancingOp op) →
      stored ≤ ops.foldl cursorStoreStep stored := by
  induction ops with
  | nil => exact fun stored _ => Nat.le_refl stored
  | cons op rest ih =>
    intro stored h
    have h1 := cursorStoreStep_advancing_le stored op (h op (List.mem_cons_self op rest))
    exact Nat.le_trans h1 (ih _ fun op' h' => h op' (List.mem_cons_of_mem op h'))

theorem processBatch_cursor_persisted (cfg : MonitorCfg)
    (consumers : List ConsumerRegistration) (now : Nat) :
    ∀ (batch : List RawLedgerEvent) (s : MonitorState),
      s.cursor ∈ s.persistLog →
      (processBatch cfg consumers now s batch).cursor ∈
        (processBatch cfg consumers now s batch).persistLog := by
  intro batch
  induction batch with
  | nil => exact fun s h => h
  | cons r rs ih =>
    intro s h
    cases hn : normalize r with
    | error err =>
      rw [processBatch_cons_error cfg consumers now s r rs err hn]
      exact ih _ (List.mem_cons_self _ _)
    | ok e =>
      cases hseen : seen s.dedup e.eventId now with
      | true =>
        rw [processBatch_cons_seen cfg consumers now s r rs e hn hseen]
        exact ih _ (List.mem_cons_self _ _)
      | false =>
        cases hok : deliverAllOk consumers e with
        | true =>
          rw [processBatch_cons_fresh_ok cfg consumers now s r rs e hn hseen hok]
          exact ih _ (List.mem_cons_self _ _)
        | false =>
          rw [processBatch_cons_fresh_fail cfg consumers now s r rs e hn hseen hok]
          exact h

/-! ## Claim theorems -/

/-- Claim C9: `AppModule`'s imports list is exactly
[DatabaseModule, RedisModule, VoiceModule, StellarMonitorModule], its
controllers list is exactly [AppController], and its providers list is
exactly [AppService]; no other modules, controllers, or providers are
registered at the root. -/
theorem claim_C9 :
    AppModule.imports = [NestModuleRef.DatabaseModule, NestModuleRef.RedisModule,
      NestModuleRef.VoiceModule, NestModuleRef.StellarMonitorModule] ∧
    AppModule.controllers = [ControllerRef.AppController] ∧
    AppModule.providers = [ProviderRef.AppService] :=
  ⟨rfl, rfl, rfl⟩

/-- Claim C10: `RootLayout` is a pure function of its children: for every
children value it returns an `html` element with `lang="en"` whose body
contains exactly that children value unchanged, and the exported metadata
constant has title "Stellara AI". -/
theorem claim_C10 (children : ReactNode) :
    RootLayout children =
      ReactNode.element "html" [("lang", "en")]
        [ReactNode.element "body" [("className", bodyClassName)] [children]] ∧
    metadata.title = "Stellara AI" :=
  ⟨rfl, rfl⟩

/-- Claim C6: `normalize` assigns `eventId` deterministically — any two
well-formed raw events with the same source transaction id and operation
index normalize to events carrying the same `eventId` (a stable hash over
transaction id + operation index), regardless of their other fields. -/
theorem claim_C6 (r1 r2 : RawLedgerEvent) (e1 e2 : NormalizedEvent)
    (h1 : normalize r1 = Except.ok e1) (h2 : normalize r2 = Except.ok e2)
    (htx : r1.txId = r2.txId) (hop : r1.opIndex = r2.opIndex) :
    e1.eventId = e2.eventId := by
  rw [normalize_ok_eventId h1, normalize_ok_eventId h2, htx, hop]

/-- Witness for C6: two fetches of the same source operation (differing in
ledger position, kind tag, payload and timestamp) yield the same eventId. -/
theorem claim_C6_witness :
    ∃ e1 e2 : NormalizedEvent,
      normalize { ledgerSeq := 5, txId := "tx", opIndex := 0, kindTag := 0,
                  payload := "a", timestamp := 10 } = Except.ok e1 ∧
      normalize { ledgerSeq := 7, txId := "tx", opIndex := 0, kindTag := 1,
                  payload := "b", timestamp := 99 } = Except.ok e2 ∧
      e1.eventId = e2.eventId := by
  refine ⟨⟨stableHash "tx" 0, 5, kindOfTag 0, "a", 10⟩,
          ⟨stableHash "tx" 0, 7, kindOfTag 1, "b", 99⟩, rfl, rfl, ?_⟩
  exact claim_C6 ⟨5, "tx", 0, 0, "a", 10⟩ ⟨7, "tx", 0, 1, "b", 99⟩
    ⟨stableHash "tx" 0, 5, kindOfTag 0, "a", 10⟩
    ⟨stableHash "tx" 0, 7, kindOfTag 1, "b", 99⟩ rfl rfl rfl rfl

/-- Claim C7: `normalize` fails with `MalformedEventError` exactly on
schema-violating input, and a malformed record never aborts its batch — the
demonstration batch of five events whose third record is malformed yields
four dispatches and one logged skip, with the cursor advancing past all
five. -/
theorem claim_C7 :
    (∀ r : RawLedgerEvent, (∃ e, normalize r = Except.ok e) ↔ schemaOk r = true) ∧
    (∀ r : RawLedgerEvent, schemaOk r = false →
      normalize r = Except.error MonitorError.malformedEvent) ∧
    ((processBatch ⟨60⟩ [voiceConsumer] 100 (initState 0) demoBatch5).dispatchLog.length = 4 ∧
     (processBatch ⟨60⟩ [voiceConsumer] 100 (initState 0) demoBatch5).skipLog = [3] ∧
     (processBatch ⟨60⟩ [voiceConsumer] 100 (initState 0) demoBatch5).cursor = 5) := by
  refine ⟨fun r => ⟨?_, ?_⟩, fun r hs => ?_, by decide⟩
  · rintro ⟨e, he⟩
    cases hs : schemaOk r with
    | true => rfl
    | false => simp [normalize, hs] at he
  · intro hs
    exact ⟨{ eventId := stableHash r.txId r.opIndex, ledgerSequence := r.ledgerSeq,
             kind := kindOfTag r.kindTag, payload := r.payload, observedAt := r.timestamp },
           by simp [normalize, hs]⟩
  · simp [normalize, hs]

/-- Witness for C7: the malformed third record of the demonstration batch
(empty transaction id) is rejected with `MalformedEventError`. -/
theorem claim_C7_witness :
    normalize { ledgerSeq := 3, txId := "", opIndex := 0, kindTag := 0,
                payload := "p3", timestamp := 3 } =
      Except.error MonitorError.malformedEvent :=
  claim_C7.2.1 _ (by decide)

/-- Claim C2: replaying the same raw event within the dedup retention window
(dedup TTL at least the retry window) results in exactly one dispatch to each
registered matching consumer, and `markSeen` is idempotent. -/
theorem claim_C2 (cfg : MonitorCfg) (consumers : List ConsumerRegistration)
    (c : ConsumerRegistration) (r : RawLedgerEvent) (e : NormalizedEvent)
    (c0 t0 t1 retryWindow : Nat)
    (hn : normalize r = Except.ok e)
    (hok : deliverAllOk consumers e = true)
    (hmem : c ∈ consumers) (hfilter : c.interestFilter e = true)
    (hids : (consumers.map ConsumerRegistration.consumerId).Nodup)
    (h01 : t0 ≤ t1) (hrw : t1 - t0 ≤ retryWindow) (httl : retryWindow ≤ cfg.dedupTtl) :
    countDispatch
      (processBatch cfg consumers t1
        (processBatch cfg consumers t0 (initState c0) [r]) [r])
      c.consumerId e.eventId = 1 ∧
    (∀ (cache : DedupCache) (eid ttl now : Nat),
      markSeen (markSeen cache eid ttl now) eid ttl now = markSeen cache eid ttl now) := by
  refine ⟨?_, fun cache eid ttl now => markSeen_idem cache eid ttl now⟩
  have hseen0 : seen (initState c0).dedup e.eventId t0 = false := rfl
  rw [processBatch_singleton_fresh cfg consumers t0 (initState c0) r e hn hseen0 hok]
  have hle : t1 ≤ t0 + cfg.dedupTtl := by omega
  have hseen1 : seen (markSeen (initState c0).dedup e.eventId cfg.dedupTtl t0)
      e.eventId t1 = true := by
    simp [initState, markSeen, seen, hle]
  rw [processBatch_cons_seen cfg consumers t1 _ r [] e hn hseen1]
  simp only [processBatch, countDispatch, advanceCursor, List.nil_append]
  exact count_matching_dispatch consumers c e hids hmem hfilter

/-- Witness for C2: replaying `demoRaw` at times 0 and 10 with retry window
30 and dedup TTL 60 yields exactly one dispatch to the voice consumer. -/
theorem claim_C2_witness :
    countDispatch
      (processBatch ⟨60⟩ [voiceConsumer] 10
        (processBatch ⟨60⟩ [voiceConsumer] 0 (initState 0) [demoRaw]) [demoRaw])
      1 (stableHash "t1" 0) = 1 := by
  have h := claim_C2 ⟨60⟩ [voiceConsumer] voiceConsumer demoRaw demoNorm 0 0 10 30
    rfl rfl (List.mem_cons_self voiceConsumer []) rfl (by decide) (by decide)
    (by decide) (by decide)
  exact h.1

/-- Claim C4: if delivery of a normalized event fails for some matching
consumer after its retry budget, the event is not marked seen in the
deduplication cache and the cursor is not advanced past it — dedup state and
cursor are unchanged with respect to that event. -/
theorem claim_C4 (cfg : MonitorCfg) (consumers : List ConsumerRegistration)
    (now : Nat) (s : MonitorState) (r : RawLedgerEvent) (rs : List RawLedgerEvent)
    (e : NormalizedEvent)
    (hn : normalize r = Except.ok e)
    (hseen : seen s.dedup e.eventId now = false)
    (hfail : deliverAllOk consumers e = false) :
    (processBatch cfg consumers now s (r :: rs)).dedup = s.dedup ∧
    seen (processBatch cfg consumers now s (r :: rs)).dedup e.eventId now = false ∧
    (processBatch cfg consumers now s (r :: rs)).cursor = s.cursor := by
  have h : processBatch cfg consumers now s (r :: rs) =
      { s with dispatchLog := s.dispatchLog ++
          (matching consumers e).map (fun x => (x.consumerId, e.eventId)) } := by
    simp only [processBatch, hn, hseen, hfail, Bool.false_eq_true, if_false, if_neg,
      not_false_eq_true]
  rw [h]
  exact ⟨rfl, hseen, rfl⟩

/-- Witness for C4: a consumer whose delivery always fails leaves `demoRaw`
unmarked in the dedup cache and the cursor unmoved. -/
theorem claim_C4_witness :
    (processBatch ⟨60⟩ [failingConsumer] 0 (initState 0) [demoRaw]).dedup =
      (initState 0).dedup ∧
    seen (processBatch ⟨60⟩ [failingConsumer] 0 (initState 0) [demoRaw]).dedup
      demoNorm.eventId 0 = false ∧
    (processBatch ⟨60⟩ [failingConsumer] 0 (initState 0) [demoRaw]).cursor =
      (initState 0).cursor :=
  claim_C4 ⟨60⟩ [failingConsumer] 0 (initState 0) demoRaw [] demoNorm rfl rfl rfl

/-- Claim C3: every batch returned by `fetchSince` is in strictly increasing
ledger-sequence order (the client sorts before returning), and the dispatcher
delivers a batch in that ascending order — the out-of-order source batch with
sequences [3,1,2] is returned as [1,2,3] and delivered in that order. -/
theorem claim_C3 (source : List RawLedgerEvent) (cursor : Nat)
    (hnd : (source.map RawLedgerEvent.ledgerSeq).Nodup) :
    (fetchSince source cursor).Pairwise (fun a b => a.ledgerSeq < b.ledgerSeq) ∧
    (fetchSince demoOutOfOrder 0).map RawLedgerEvent.ledgerSeq = [1, 2, 3] ∧
    (processBatch ⟨60⟩ [voiceConsumer] 0 (initState 0)
        (fetchSince demoOutOfOrder 0)).dispatchLog =
      [(1, stableHash "a1" 0), (1, stableHash "a2" 0), (1, stableHash "a3" 0)] := by
  refine ⟨?_, by decide, by decide⟩
  have hsorted : (fetchSince source cursor).Pairwise seqLe :=
    List.sorted_insertionSort seqLe _
  have hperm : (fetchSince source cursor).Perm
      (source.filter (fun r => cursor < r.ledgerSeq)) :=
    List.perm_insertionSort seqLe _
  have hnd1 : ((source.filter (fun r => cursor < r.ledgerSeq)).map
      RawLedgerEvent.ledgerSeq).Nodup :=
    hnd.sublist ((List.filter_sublist source).map RawLedgerEvent.ledgerSeq)
  have hnd2 : ((fetchSince source cursor).map RawLedgerEvent.ledgerSeq).Nodup :=
    (hperm.map RawLedgerEvent.ledgerSeq).symm.nodup hnd1
  rw [List.Nodup, List.pairwise_map] at hnd2
  exact (hsorted.and hnd2).imp fun hab => Nat.lt_of_le_of_ne hab.1 hab.2

/-- Witness for C3: the out-of-order demonstration batch comes back from
`fetchSince` in strictly increasing ledger-sequence order. -/
theorem claim_C3_witness :
    (fetchSince demoOutOfOrder 0).Pairwise (fun a b => a.ledgerSeq < b.ledgerSeq) :=
  (claim_C3 demoOutOfOrder 0 (by decide)).1

/-- Claim C5: after a crash that loses the in-memory position but not the
persisted cursor `p ≤ N`, a restart fetches from `p`: every source event past
the durably dispatched point `N` is refetched (never skipped), and everything
refetched lies strictly after `p` (at most the tail from the persisted
cursor is redelivered). -/
theorem claim_C5 (source : List RawLedgerEvent) (p N : Nat) (hpN : p ≤ N) :
    (∀ r ∈ source, N < r.ledgerSeq → r ∈ fetchSince source p) ∧
    (∀ r ∈ fetchSince source p, p < r.ledgerSeq) := by
  have hperm : (fetchSince source p).Perm
      (source.filter (fun r => p < r.ledgerSeq)) :=
    List.perm_insertionSort seqLe _
  constructor
  · intro r hr hN
    rw [hperm.mem_iff]
    exact List.mem_filter.2 ⟨hr, by simpa using Nat.lt_of_le_of_lt hpN hN⟩
  · intro r hr
    have hm := List.mem_filter.1 (hperm.mem_iff.1 hr)
    simpa using hm.2

/-- Witness for C5: with persisted cursor 1 and dispatch point 2, the event
at sequence 3 is refetched and every refetched event is past the cursor. -/
theorem claim_C5_witness :
    (∀ r ∈ demoOutOfOrder, 2 < r.ledgerSeq → r ∈ fetchSince demoOutOfOrder 1) ∧
    (∀ r ∈ fetchSince demoOutOfOrder 1, 1 < r.ledgerSeq) :=
  claim_C5 demoOutOfOrder 1 2 (by decide)

/-- Claim C1: the stored cursor never moves backward under any sequence of
non-resync operations; a conditional write whose expected prior value is
older than the stored cursor is rejected and leaves the store unchanged; and
throughout batch processing the committed cursor is always a value that has
been persisted. -/
theorem claim_C1 :
    (∀ (stored : Nat) (ops : List CursorOp), (∀ op ∈ ops, advancingOp op) →
      stored ≤ ops.foldl cursorStoreStep stored) ∧
    (∀ stored expected newVal : Nat, expected < stored →
      condWriteStore stored expected newVal = (stored, false)) ∧
    (∀ (cfg : MonitorCfg) (consumers : List ConsumerRegistration) (now : Nat)
      (s : MonitorState) (batch : List RawLedgerEvent),
      s.cursor ∈ s.persistLog →
      (processBatch cfg consumers now s batch).cursor ∈
        (processBatch cfg consumers now s batch).persistLog) := by
  refine ⟨fun stored ops h => foldl_cursorStoreStep_mono ops stored h,
          fun stored expected newVal h => ?_,
          fun cfg consumers now s batch h =>
            processBatch_cursor_persisted cfg consumers now batch s h⟩
  simp [condWriteStore, h]

/-- Witness for C1: two racing-style conditional writes only move the cursor
forward; a stale write against a newer stored cursor is rejected; and after a
concrete batch the committed cursor appears in the persist log. -/
theorem claim_C1_witness :
    (5 ≤ [CursorOp.condWrite 5 9, CursorOp.condWrite 9 12].foldl cursorStoreStep 5) ∧
    condWriteStore 7 3 10 = (7, false) ∧
    (processBatch ⟨60⟩ [voiceConsumer] 0 (initState 0) [demoRaw]).cursor ∈
      (processBatch ⟨60⟩ [voiceConsumer] 0 (initState 0) [demoRaw]).persistLog :=
  ⟨claim_C1.1 5 [CursorOp.condWrite 5 9, CursorOp.condWrite 9 12] (by decide),
   claim_C1.2.1 7 3 10 (by decide),
   claim_C1.2.2 ⟨60⟩ [voiceConsumer] 0 (initState 0) [demoRaw] (by decide)⟩

/-- Claim C8: three consecutive transient fetch failures produce strictly
increasing delays within the jitter bounds; every computed delay is capped at
`maxBackoffMs`; the failure counter counts the three errors; and any
subsequent success resets the counter so the next delay is the minimum. -/
theorem claim_C8 (cfg : BackoffCfg) (j : Nat → Nat)
    (hj : ∀ i, j i < cfg.minBackoffMs)
    (hcap : cfg.minBackoffMs * 2 ^ 2 + j 2 ≤ cfg.maxBackoffMs) :
    (backoffDelay cfg 0 (j 0) < backoffDelay cfg 1 (j 1) ∧
     backoffDelay cfg 1 (j 1) < backoffDelay cfg 2 (j 2)) ∧
    (∀ failures jitter, backoffDelay cfg failures jitter ≤ cfg.maxBackoffMs) ∧
    ([FetchOutcome.transientError, FetchOutcome.transientError,
       FetchOutcome.transientError].foldl stepRetry 0 = 3) ∧
    (∀ failures, stepRetry failures FetchOutcome.success = 0) ∧
    (cfg.minBackoffMs ≤ cfg.maxBackoffMs → backoffDelay cfg 0 0 = cfg.minBackoffMs) := by
  have h0 := hj 0
  have h1 := hj 1
  have h2 := hj 2
  have e0 : (2 : Nat) ^ 0 = 1 := rfl
  have e1 : (2 : Nat) ^ 1 = 2 := rfl
  have e2 : (2 : Nat) ^ 2 = 4 := rfl
  refine ⟨?_, fun failures jitter => Nat.min_le_right _ _, rfl, fun _ => rfl, ?_⟩
  · unfold backoffDelay
    rw [e0, e1, e2]
    rw [e2] at hcap
    omega
  · intro hmm
    unfold backoffDelay
    rw [e0]
    omega

/-- Witness for C8: with minimum delay 100 ms, cap 30000 ms and jitter 5 ms,
the three consecutive-failure delays strictly increase. -/
theorem claim_C8_witness :
    backoffDelay ⟨100, 30000⟩ 0 5 < backoffDelay ⟨100, 30000⟩ 1 5 ∧
    backoffDelay ⟨100, 30000⟩ 1 5 < backoffDelay ⟨100, 30000⟩ 2 5 :=
  (claim_C8 ⟨100, 30000⟩ (fun _ => 5) (fun _ => (by decide : (5 : Nat) < 100))
    (by decide)).1

end Stellara
